import Mathlib

/-!
Verification development for the backup-monitor core: the bounded directory
scanner (src/backup_monitor/core/scanner.py), the analyzer
(src/backup_monitor/core/file_analyzer.py) and the failover selection and
orchestration logic (src/backup_monitor/core/monitor.py).

The filesystem is modelled as a static tree of entries.  Timestamps are
seconds since the epoch as natural numbers; Python computes
(now - t).days, which for t ≤ now equals (now - t) / 86400 with floor
division, and the model uses natural subtraction (for t > now both the
Python value and the model value pass every "≤ days" gate appearing in the
code, so all decisions coincide).  Python float divisions that are only
compared against constants (0.5 in identify_issues) are replaced by the
exact integer comparison they implement for any realistic list length,
and percentages are computed in ℚ.
-/

/-- Python str.startswith: pat is a raw character-wise leading substring of s.
Strings in Lean 4.14 carry their list of characters, which matches the
code-point indexing Python uses. -/
def startswith (s pat : String) : Bool := pat.data.isPrefixOf s.data

/-- DirectoryScanner._is_excluded: a path is excluded iff some exclusion
pattern is a raw string prefix of it (scanner.py lines 134-139). -/
def isExcluded (p : String) (patterns : List String) : Bool :=
  patterns.any (fun pat => startswith p pat)

/-- The depth computation of _get_directories_to_scan (scanner.py line 113):
root[len(base_path):].count(os.sep), with os.sep = "/". -/
def relDepth (base p : String) : Nat :=
  ((p.data).drop base.data.length).count '/'

/-- models.FileInfo. -/
structure FileInfo where
  path : String
  name : String
  size : Nat
  modified_time : Nat
  is_directory : Bool
deriving Repr, DecidableEq

/-- models.DirectoryStats. -/
structure DirectoryStats where
  path : String
  file_count : Nat
  subdirectory_count : Nat
  total_size : Nat
  most_recent_file : Option FileInfo
  is_empty : Bool
  error_message : Option String := none
deriving Repr, DecidableEq

/-- One node of the modelled filesystem.  A directory records its own
modification time, two independent probe outcomes - listErr is true when
os.scandir fails while os.walk visits the node (os.walk then silently skips
it), and readErr holds the error message produced when _analyze_directory
later fails on it (os.access returning false yields the message
"Directory not readable", an OSError yields str(e)) - and its immediate
children in enumeration order.  The two flags are independent because the
two phases of the scan probe the filesystem with separate system calls.
Per-entry stat failures (the inner try/except of _analyze_directory, which
silently skips one child) are not modelled: every enumerated child is
assumed to stat successfully. -/
inductive Entry where
  | file (name : String) (size : Nat) (mtime : Nat) : Entry
  | dir (name : String) (mtime : Nat) (listErr : Bool) (readErr : Option String)
      (children : List Entry) : Entry

/-- Name of an entry, used to build the os.path.join paths of os.walk. -/
def entryName : Entry → String
  | .file n _ _ => n
  | .dir n _ _ _ _ => n

/-- A directory collected by _get_directories_to_scan: its full path plus the
node data that the later _analyze_directory pass will observe at that path
(the filesystem is static, so resolving the collected path again yields the
same node). -/
structure CollectedDir where
  path : String
  readErr : Option String
  children : List Entry

mutual
/-- The body of the os.walk loop of _get_directories_to_scan (scanner.py
lines 111-130) at one visited directory.  os.walk is top-down depth-first;
a node whose scandir fails (listErr) is silently skipped together with its
subtree; depth pruning and exclusion pruning clear dirs[:] and continue;
the base path itself is never appended; after appending, reaching
max_dirs * 2 collected entries breaks out of the whole walk (the Bool
component signals the break). -/
def visitDir (base : String) (excl : List String) (d m : Nat) (p : String) (e : Entry)
    (acc : List CollectedDir) : List CollectedDir × Bool :=
  match e with
  | .file _ _ _ => (acc, false)
  | .dir _ _ le re cs =>
    if le then (acc, false)
    else if d ≤ relDepth base p then (acc, false)
    else if isExcluded p excl then (acc, false)
    else
      let acc2 := if p = base then acc else acc ++ [⟨p, re, cs⟩]
      if m * 2 ≤ acc2.length then (acc2, true)
      else visitChildren base excl d m p cs acc2
termination_by structural e
/-- Visits the children of a directory in enumeration order, stopping as
soon as the break flag is raised. -/
def visitChildren (base : String) (excl : List String) (d m : Nat) (p : String)
    (cs : List Entry) (acc : List CollectedDir) : List CollectedDir × Bool :=
  match cs with
  | [] => (acc, false)
  | c :: rest =>
    let r := visitDir base excl d m (p ++ "/" ++ entryName c) c acc
    if r.2 then r
    else visitChildren base excl d m p rest r.1
termination_by structural cs
end

/-- DirectoryScanner._get_directories_to_scan on an existing directory root
(scanner.py lines 100-132): run the walk and keep the first max_dirs
collected directories. -/
def get_directories_to_scan (base : String) (excl : List String) (d m : Nat)
    (e : Entry) : List CollectedDir :=
  ((visitDir base excl d m base e []).1).take m

/-- Accumulator of _analyze_directory: the four running locals file_count,
subdirectory_count, total_size and most_recent_file (most_recent_time is
always the modified_time of most_recent_file, so it is not duplicated). -/
structure AnalyzeState where
  fileCount : Nat
  subdirCount : Nat
  totalSize : Nat
  mostRecent : Option FileInfo

/-- The most-recent update of _analyze_directory (scanner.py lines 184-185
and 200-201): take the new entry only when there is no current one or the
new modification time is strictly greater. -/
def updateMostRecent (mr : Option FileInfo) (fi : FileInfo) : Option FileInfo :=
  match mr with
  | none => some fi
  | some cur => if cur.modified_time < fi.modified_time then some fi else mr

/-- The os.scandir loop of _analyze_directory (scanner.py lines 169-213):
files matching an exclusion pattern are skipped entirely; counted files add
their size; every immediate subdirectory is counted and participates in the
most-recent comparison with size 0 and is_directory = true. -/
def analyzeChildren (dirPath : String) (excl : List String) :
    List Entry → AnalyzeState → AnalyzeState
  | [], st => st
  | .file n sz mt :: rest, st =>
    if isExcluded (dirPath ++ "/" ++ n) excl then analyzeChildren dirPath excl rest st
    else
      analyzeChildren dirPath excl rest
        ⟨st.fileCount + 1, st.subdirCount, st.totalSize + sz,
          updateMostRecent st.mostRecent ⟨dirPath ++ "/" ++ n, n, sz, mt, false⟩⟩
  | .dir n mt _ _ _ :: rest, st =>
    analyzeChildren dirPath excl rest
      ⟨st.fileCount, st.subdirCount + 1, st.totalSize,
        updateMostRecent st.mostRecent ⟨dirPath ++ "/" ++ n, n, 0, mt, true⟩⟩

/-- DirectoryScanner._analyze_directory (scanner.py lines 141-233).  When the
directory cannot be read (os.access false or OSError from os.scandir), an
error-tagged record with zero counts and is_empty = true is returned;
otherwise the immediate children are folded and is_empty is file_count == 0. -/
def analyze_directory (p : String) (excl : List String) (readErr : Option String)
    (children : List Entry) : DirectoryStats :=
  match readErr with
  | some msg =>
    { path := p, file_count := 0, subdirectory_count := 0, total_size := 0,
      most_recent_file := none, is_empty := true, error_message := some msg }
  | none =>
    let st := analyzeChildren p excl children ⟨0, 0, 0, none⟩
    { path := p, file_count := st.fileCount, subdirectory_count := st.subdirCount,
      total_size := st.totalSize, most_recent_file := st.mostRecent,
      is_empty := decide (st.fileCount = 0), error_message := none }

/-- The collection loop of _scan_local_directory (scanner.py lines 72-96):
stop once processed_count reaches max_dirs, otherwise analyze the next
collected directory and append its record.  In the model _analyze_directory
is total (its failure modes already return an error-tagged record, which is
what the Python code does for the unreadable and OSError cases), so the
except-branch of the loop, which appends an error record without
incrementing processed_count, cannot fire. -/
def scanLoop (excl : List String) (m : Nat) :
    List CollectedDir → Nat → List DirectoryStats → List DirectoryStats
  | [], _, res => res
  | cd :: rest, c, res =>
    if m ≤ c then res
    else scanLoop excl m rest (c + 1) (res ++ [analyze_directory cd.path excl cd.readErr cd.children])

/-- DirectoryScanner._scan_local_directory on an existing directory root. -/
def scan_local_directory (base : String) (excl : List String) (d m : Nat)
    (e : Entry) : List DirectoryStats :=
  scanLoop excl m (get_directories_to_scan base excl d m e) 0 []

/-- DirectoryScanner.scan_directory (scanner.py lines 31-62) with the scanner
configuration (max_depth d, max_dirs m) passed explicitly.  The root is
none when the path does not exist, a file entry when it exists but is not a
directory; in both cases _get_directories_to_scan raises and scan_directory
catches the exception, returning a single error-tagged record whose message
is str(e). -/
def scan_directory (base : String) (excl : List String) (d m : Nat)
    (root : Option Entry) : List DirectoryStats :=
  match root with
  | none =>
    [{ path := base, file_count := 0, subdirectory_count := 0, total_size := 0,
       most_recent_file := none, is_empty := true,
       error_message := some ("Path does not exist: " ++ base) }]
  | some (Entry.file _ _ _) =>
    [{ path := base, file_count := 0, subdirectory_count := 0, total_size := 0,
       most_recent_file := none, is_empty := true,
       error_message := some ("Path is not a directory: " ++ base) }]
  | some (Entry.dir nm mt le re cs) =>
    scan_local_directory base excl d m (Entry.dir nm mt le re cs)

/-- The sequence of FileInfo records that _analyze_directory submits to the
most-recent comparison, in enumeration order: every non-excluded immediate
file and every immediate subdirectory (subdirectories are not exclusion
filtered there). -/
def consideredEntries (dirPath : String) (excl : List String) : List Entry → List FileInfo
  | [] => []
  | .file n sz mt :: rest =>
    if isExcluded (dirPath ++ "/" ++ n) excl then consideredEntries dirPath excl rest
    else ⟨dirPath ++ "/" ++ n, n, sz, mt, false⟩ :: consideredEntries dirPath excl rest
  | .dir n mt _ _ _ :: rest =>
    ⟨dirPath ++ "/" ++ n, n, 0, mt, true⟩ :: consideredEntries dirPath excl rest

/-- The sizes of the immediate files that _analyze_directory counts: the
files whose full path matches no exclusion pattern, in enumeration order. -/
def includedFileSizes (dirPath : String) (excl : List String) : List Entry → List Nat
  | [] => []
  | .file n sz _ :: rest =>
    if isExcluded (dirPath ++ "/" ++ n) excl then includedFileSizes dirPath excl rest
    else sz :: includedFileSizes dirPath excl rest
  | .dir _ _ _ _ _ :: rest => includedFileSizes dirPath excl rest

/-- One record of the recent_activity list built by
FileAnalyzer.analyze_results (file_analyzer.py lines 66-73); the redundant
preformatted modified_str presentation string is not duplicated. -/
structure RecentActivity where
  location : String
  directory : String
  file : String
  size : Nat
  modified : Nat
deriving Repr, DecidableEq

/-- The analysis dictionary returned by FileAnalyzer.analyze_results
(file_analyzer.py lines 82-95).  healthy_directories is an integer because
Python computes it by subtraction; health_percentage is the exact rational
value of the float division. -/
structure AnalysisSummary where
  total_locations : Nat
  total_directories : Nat
  total_files : Nat
  total_size : Nat
  empty_directories : Nat
  error_directories : Nat
  healthy_directories : Int
  health_percentage : Rat
  recent_files : Nat
  recent_activity : List RecentActivity
  days_analyzed : Nat
deriving Repr, DecidableEq

/-- Running counters of the analyze_results loop. -/
structure Tally where
  total : Nat
  files : Nat
  size : Nat
  empty : Nat
  errors : Nat
  recent : Nat
  activity : List RecentActivity

/-- The per-record body of the analyze_results loop (file_analyzer.py lines
47-73): every record counts toward total_directories; an error-tagged record
counts only toward error_directories (the continue skips every later check,
including the is_empty one); otherwise files, sizes, emptiness and recent
activity are accumulated. -/
def tallyStats (cutoff : Nat) (locName : String) (t : Tally) (s : DirectoryStats) : Tally :=
  let t1 : Tally := { t with total := t.total + 1 }
  match s.error_message with
  | some _ => { t1 with errors := t1.errors + 1 }
  | none =>
    let t2 : Tally := { t1 with files := t1.files + s.file_count, size := t1.size + s.total_size }
    let t3 : Tally := if s.is_empty then { t2 with empty := t2.empty + 1 } else t2
    match s.most_recent_file with
    | some f =>
      if cutoff ≤ f.modified_time then
        { t3 with
          recent := t3.recent + 1,
          activity := t3.activity ++ [⟨locName, s.path, f.name, f.size, f.modified_time⟩] }
      else t3
    | none => t3

/-- The double loop of analyze_results over locations and their records. -/
def tallyAll (cutoff : Nat) (results : List (String × List DirectoryStats)) : Tally :=
  results.foldl (fun t pr => pr.2.foldl (tallyStats cutoff pr.1) t) ⟨0, 0, 0, 0, 0, 0, []⟩

/-- Stable insertion of one record into a list sorted by descending modified
time: the record goes before the first strictly older record, so records of
equal time keep their original relative order. -/
def insertDesc (x : RecentActivity) : List RecentActivity → List RecentActivity
  | [] => [x]
  | y :: ys => if y.modified < x.modified then x :: y :: ys else y :: insertDesc x ys

/-- Stable sort by descending modified time, the exact output of the Python
stable sort with key modified and reverse=True (stable sorts agree on their
output regardless of algorithm). -/
def sortDesc : List RecentActivity → List RecentActivity
  | [] => []
  | x :: xs => insertDesc x (sortDesc xs)

/-- FileAnalyzer.analyze_results (file_analyzer.py lines 21-100) with the
clock passed explicitly: cutoff_time = now - timedelta(days=days_back). -/
def analyze_results (now daysBack : Nat) (results : List (String × List DirectoryStats)) :
    AnalysisSummary :=
  let cutoff := now - daysBack * 86400
  let t := tallyAll cutoff results
  let healthy : Int := (t.total : Int) - (t.empty : Int) - (t.errors : Int)
  { total_locations := results.length,
    total_directories := t.total,
    total_files := t.files,
    total_size := t.size,
    empty_directories := t.empty,
    error_directories := t.errors,
    healthy_directories := healthy,
    health_percentage := if 0 < t.total then (healthy : Rat) / (t.total : Rat) * 100 else 0,
    recent_files := t.recent,
    recent_activity := sortDesc t.activity,
    days_analyzed := daysBack }

/-- One issue reported by FileAnalyzer.identify_issues.  The human-readable
message string is a presentation artifact assembled from the other fields
and is not duplicated; count is the error count of access_errors issues and
percentage the exact rational value of the empty percentage of
many_empty_dirs issues. -/
structure Issue where
  type : String
  severity : String
  location : String
  count : Option Nat := none
  percentage : Option Rat := none
deriving Repr, DecidableEq

/-- The no_data issue emitted for a location with an empty result list
(file_analyzer.py lines 176-183). -/
def noDataIssue (name : String) : Issue :=
  { type := "no_data", severity := "high", location := name }

/-- The recent-activity test of the stale_backup check (file_analyzer.py
lines 197-202): some record is error-free and has a most-recent entry with
modified time at or after the cutoff. -/
def hasRecentActivity (cutoff : Nat) (stats : List DirectoryStats) : Bool :=
  stats.any (fun s =>
    s.error_message.isNone &&
      (match s.most_recent_file with
       | some f => cutoff ≤ f.modified_time
       | none => false))

/-- The per-location body of FileAnalyzer.identify_issues (file_analyzer.py
lines 175-223).  An empty result list short-circuits with a single no_data
issue (the continue of line 183); otherwise the access_errors, stale_backup
and many_empty_dirs checks run in order, each appending one issue when its
condition holds.  The float comparison empty/len > 0.5 is the integer
comparison len < 2 * empty. -/
def issuesForLocation (cutoff : Nat) (name : String) (stats : List DirectoryStats) :
    List Issue :=
  if stats.isEmpty then [noDataIssue name]
  else
    let errorCount := stats.countP (fun s => s.error_message.isSome)
    let issues1 : List Issue :=
      if 0 < errorCount then
        [{ type := "access_errors", severity := "medium", location := name,
           count := some errorCount }]
      else []
    let issues2 : List Issue :=
      if !hasRecentActivity cutoff stats then
        issues1 ++ [{ type := "stale_backup", severity := "medium", location := name }]
      else issues1
    let nonErr := stats.filter (fun s => s.error_message.isNone)
    let emptyCount := nonErr.countP (fun s => s.is_empty)
    if !nonErr.isEmpty && decide (nonErr.length < 2 * emptyCount) then
      issues2 ++ [{ type := "many_empty_dirs", severity := "low", location := name,
                    percentage := some ((emptyCount : Rat) / (nonErr.length : Rat) * 100) }]
    else issues2

/-- FileAnalyzer.identify_issues (file_analyzer.py lines 161-225) with the
clock passed explicitly: the extended cutoff is
now - timedelta(days=days_back * 2). -/
def identify_issues (now daysBack : Nat) (results : List (String × List DirectoryStats)) :
    List Issue :=
  results.flatMap (fun pr => issuesForLocation (now - daysBack * 2 * 86400) pr.1 pr.2)

/-- The no_data condition of identify_issues, stated on its own: the location
has an empty result list. -/
def noDataCond (stats : List DirectoryStats) : Bool := stats.isEmpty

/-- The access_errors condition of identify_issues, stated on its own: some
record carries an error message. -/
def accessErrorsCond (stats : List DirectoryStats) : Bool :=
  decide (0 < stats.countP (fun s => s.error_message.isSome))

/-- The stale_backup condition of identify_issues, stated on its own: no
error-free record has a most-recent entry at or after the extended cutoff. -/
def staleCond (cutoff : Nat) (stats : List DirectoryStats) : Bool :=
  !hasRecentActivity cutoff stats

/-- The many_empty_dirs condition of identify_issues, stated on its own:
there is at least one error-free record and strictly more than half of the
error-free records are empty. -/
def manyEmptyCond (stats : List DirectoryStats) : Bool :=
  let nonErr := stats.filter (fun s => s.error_message.isNone)
  !nonErr.isEmpty && decide (nonErr.length < 2 * nonErr.countP (fun s => s.is_empty))

/-- One configured backup location (monitor.py reads these as dictionaries;
the type key is always "local" in this repository and is omitted).  The
fields activity, pathExists and isDir record the outcomes of the
environment probes made for this location: activity is the result of
BackupMonitor._check_location_activity (none both when the path does not
exist and when the probe raises, matching the except/continue of
_find_active_location), and pathExists/isDir are os.path.exists and
os.path.isdir as used by _is_location_accessible. -/
structure Location where
  name : String
  path : String
  failover_group : Option String
  activity : Option Nat
  pathExists : Bool
  isDir : Bool
deriving Repr, DecidableEq

/-- Python truthiness of location.get("failover_group"): a missing key and an
empty string are both falsy (monitor.py lines 75 and 123-124). -/
def fgTruthy : Option String → Bool
  | none => false
  | some s => !s.isEmpty

/-- Appending a location to its group inside the insertion-ordered dict of
_group_failover_locations: a present key keeps its position and its list
grows at the end; a new key goes to the end of the dict. -/
def addToGroups (gs : List (String × List Location)) (g : String) (l : Location) :
    List (String × List Location) :=
  match gs with
  | [] => [(g, [l])]
  | (k, ls) :: rest =>
    if k = g then (k, ls ++ [l]) :: rest else (k, ls) :: addToGroups rest g l

/-- The loop body of _group_failover_locations (monitor.py lines 122-127):
locations with a falsy failover_group are skipped. -/
def groupStep (gs : List (String × List Location)) (l : Location) :
    List (String × List Location) :=
  match l.failover_group with
  | none => gs
  | some g => if g.isEmpty then gs else addToGroups gs g l

/-- BackupMonitor._group_failover_locations (monitor.py lines 111-130): build
the insertion-ordered groups and keep only those with more than one member. -/
def group_failover_locations (locations : List Location) :
    List (String × List Location) :=
  (locations.foldl groupStep []).filter (fun pr => decide (1 < pr.2.length))

/-- BackupMonitor._is_location_accessible (monitor.py lines 286-308) for a
local location: os.path.exists(path) and os.path.isdir(path). -/
def is_location_accessible (l : Location) : Bool := l.pathExists && l.isDir

/-- The first loop of _find_active_location (monitor.py lines 199-217):
carry the best (location, activity time) pair, replacing it only on a
strictly more recent activity time (first seen wins ties); candidates with
no probed activity are skipped. -/
def bestByActivity : List Location → Option (Location × Nat) → Option (Location × Nat)
  | [], acc => acc
  | lo :: rest, acc =>
    match lo.activity with
    | none => bestByActivity rest acc
    | some t =>
      match acc with
      | none => bestByActivity rest (some (lo, t))
      | some (bl, bt) =>
        if bt < t then bestByActivity rest (some (lo, t)) else bestByActivity rest (some (bl, bt))

/-- BackupMonitor._find_active_location (monitor.py lines 185-238): if the
best candidate has probed activity at most 7 days old
((now - t).days <= 7), select it; otherwise, and also when no candidate has
any probed activity, fall back to the first candidate in declared order
that exists and is a directory; none when no candidate is accessible. -/
def find_active_location (now : Nat) (locations : List Location) : Option Location :=
  match bestByActivity locations none with
  | some (bl, bt) =>
    if (now - bt) / 86400 ≤ 7 then some bl
    else locations.find? is_location_accessible
  | none => locations.find? is_location_accessible

/-- The placeholder record emitted when a failover group has no active
location (monitor.py lines 173-181). -/
def placeholderStats (g : String) : DirectoryStats :=
  { path := "/unavailable", file_count := 0, subdirectory_count := 0, total_size := 0,
    most_recent_file := none, is_empty := true,
    error_message := some ("No active location found in failover group \x27" ++ g ++ "\x27") }

/-- BackupMonitor._scan_with_failover (monitor.py lines 132-183), with the
single-location scan abstracted as scanLoc (in the source it is
_scan_location, which delegates to DirectoryScanner.scan_directory with the
per-location exclusion patterns and depth override; scan_directory catches
every exception, so the call is total). -/
def scan_with_failover (scanLoc : Location → List DirectoryStats) (now : Nat)
    (groups : List (String × List Location)) : List (String × List DirectoryStats) :=
  groups.map (fun pr =>
    match find_active_location now pr.2 with
    | some l => (l.name, scanLoc l)
    | none => ("No Active Location (" ++ pr.1 ++ ")", [placeholderStats pr.1]))

/-- BackupMonitor.scan_all_locations (monitor.py lines 64-109): locations
with a falsy failover_group are scanned standalone in declared order, then
the failover groups (of size at least two) contribute one keyed result list
each.  The Python result is a dict keyed by location name; it is modelled
as the association list of insertions, which agrees with the dict whenever
the produced keys are pairwise distinct. -/
def scan_all_locations (scanLoc : Location → List DirectoryStats) (now : Nat)
    (locations : List Location) : List (String × List DirectoryStats) :=
  (locations.filter (fun l => !fgTruthy l.failover_group)).map (fun l => (l.name, scanLoc l))
    ++ scan_with_failover scanLoc now (group_failover_locations locations)

/-- The key under which a location would be inserted by
_group_failover_locations: its failover_group when truthy, none otherwise. -/
def locKey (l : Location) : Option String :=
  match l.failover_group with
  | none => none
  | some g => if g.isEmpty then none else some g

/-- Children of the concrete scan fixture used by witnesses: a data
subdirectory containing one nested subdirectory, a subdirectory whose path
is caught by the exclusion pattern, and one top-level file. -/
def cTreeChildren : List Entry :=
  [Entry.dir ("data") 5 false none [Entry.dir ("x") 6 false none []],
   Entry.dir ("tmpx") 7 false none [],
   Entry.file ("f") 3 9]

/-- Concrete scan fixture rooted at /b. -/
def cTree : Entry := Entry.dir ("b") 0 false none cTreeChildren

/-- The single record produced by scanning cTree from /b with pattern /b/tmp
and max_depth 2. -/
def cStats : DirectoryStats :=
  { path := "/b/data", file_count := 0, subdirectory_count := 1, total_size := 0,
    most_recent_file := some ⟨"/b/data/x", "x", 0, 6, true⟩, is_empty := true,
    error_message := none }

/-- Children of the concrete directory used by the C6 witness: one file
modified at 10 and one subdirectory modified at 11. -/
def c6Children : List Entry :=
  [Entry.file ("f") 4 10, Entry.dir ("s") 11 false none []]

/-- The standalone scan stub used by the C1 fixtures: every location yields
one healthy record at its path. -/
def cScan : Location → List DirectoryStats := fun l =>
  [{ path := l.path, file_count := 1, subdirectory_count := 0, total_size := 0,
     most_recent_file := none, is_empty := false, error_message := none }]

/-- A location carrying a failover-group tag that no other location shares. -/
def cLoneLoc : Location :=
  { name := "A", path := "/a", failover_group := some "g", activity := some 0,
    pathExists := true, isDir := true }

/-- An untagged companion location. -/
def cLocB : Location :=
  { name := "B", path := "/b", failover_group := none, activity := none,
    pathExists := true, isDir := true }

/-- Failover candidate with probed activity 10 days before the reference
clock 12 * 86400 of the C3 witness. -/
def cFailA : Location :=
  { name := "A", path := "/a", failover_group := some "g",
    activity := some (2 * 86400), pathExists := true, isDir := true }

/-- Failover candidate with probed activity 12 days before the reference
clock 12 * 86400 of the C3 witness. -/
def cFailB : Location :=
  { name := "B", path := "/bb", failover_group := some "g",
    activity := some 0, pathExists := true, isDir := true }

/-- A failover candidate that exists, is a directory, and has the given
probed activity time; used to state the concrete instance of the fallback
claim. -/
def failCand (nm pth : String) (g : Option String) (act : Nat) : Location :=
  { name := nm, path := pth, failover_group := g, activity := some act,
    pathExists := true, isDir := true }

theorem analyze_directory_path (p : String) (excl : List String) (re : Option String)
    (cs : List Entry) : (analyze_directory p excl re cs).path = p := by
  cases re <;> rfl

theorem scanLoop_length (excl : List String) (m : Nat) :
    ∀ (l : List CollectedDir) (c : Nat) (res : List DirectoryStats),
    (scanLoop excl m l c res).length ≤ res.length + l.length := by
  intro l
  induction l with
  | nil => intro c res; simp [scanLoop]
  | cons cd rest ih =>
    intro c res
    simp only [scanLoop]
    split
    · exact Nat.le_add_right _ _
    · have h := ih (c + 1) (res ++ [analyze_directory cd.path excl cd.readErr cd.children])
      simp only [List.length_append, List.length_cons, List.length_nil] at h ⊢
      omega

theorem scanLoop_mem (excl : List String) (m : Nat) :
    ∀ (l : List CollectedDir) (c : Nat) (res : List DirectoryStats) (s : DirectoryStats),
    s ∈ scanLoop excl m l c res →
    s ∈ res ∨ ∃ cd ∈ l, s = analyze_directory cd.path excl cd.readErr cd.children := by
  intro l
  induction l with
  | nil => intro c res s h; simp only [scanLoop] at h; exact Or.inl h
  | cons cd rest ih =>
    intro c res s h
    simp only [scanLoop] at h
    split at h
    · exact Or.inl h
    · rcases ih (c + 1) _ s h with h1 | ⟨cd2, hcd2, hs⟩
      · rcases List.mem_append.mp h1 with h2 | h2
        · exact Or.inl h2
        · exact Or.inr ⟨cd, List.mem_cons_self _ _, by simpa using h2⟩
      · exact Or.inr ⟨cd2, List.mem_cons_of_mem _ hcd2, hs⟩

mutual
theorem visitDir_inv (base : String) (excl : List String) (d m : Nat) (p : String)
    (e : Entry) (acc : List CollectedDir) :
    ∀ cd ∈ (visitDir base excl d m p e acc).1,
      cd ∈ acc ∨ (relDepth base cd.path < d ∧ isExcluded cd.path excl = false) := by
  intro cd h
  cases e with
  | file n sz mt =>
    simp only [visitDir] at h
    exact Or.inl h
  | dir n mt le re cs =>
    simp only [visitDir] at h
    split at h
    · exact Or.inl h
    split at h
    · exact Or.inl h
    split at h
    · exact Or.inl h
    rename_i hle hdepth hexcl
    split at h
    · -- the base path itself: nothing was appended
      split at h
      · exact Or.inl h
      · rcases visitChildren_inv base excl d m p cs acc cd h with h2 | h2
        · exact Or.inl h2
        · exact Or.inr h2
    · -- a new collected directory was appended before recursing
      split at h
      · rcases List.mem_append.mp h with h2 | h2
        · exact Or.inl h2
        · refine Or.inr ?_
          have hcd : cd = ⟨p, re, cs⟩ := by simpa using h2
          subst hcd
          exact ⟨Nat.lt_of_not_le hdepth, by simpa using hexcl⟩
      · rcases visitChildren_inv base excl d m p cs (acc ++ [⟨p, re, cs⟩]) cd h with h2 | h2
        · rcases List.mem_append.mp h2 with h3 | h3
          · exact Or.inl h3
          · refine Or.inr ?_
            have hcd : cd = ⟨p, re, cs⟩ := by simpa using h3
            subst hcd
            exact ⟨Nat.lt_of_not_le hdepth, by simpa using hexcl⟩
        · exact Or.inr h2
termination_by structural e
theorem visitChildren_inv (base : String) (excl : List String) (d m : Nat) (p : String)
    (cs : List Entry) (acc : List CollectedDir) :
    ∀ cd ∈ (visitChildren base excl d m p cs acc).1,
      cd ∈ acc ∨ (relDepth base cd.path < d ∧ isExcluded cd.path excl = false) := by
  intro cd h
  cases cs with
  | nil =>
    simp only [visitChildren] at h
    exact Or.inl h
  | cons c rest =>
    simp only [visitChildren] at h
    split at h
    · exact visitDir_inv base excl d m (p ++ "/" ++ entryName c) c acc cd h
    · rcases visitChildren_inv base excl d m p rest _ cd h with h2 | h2
      · exact visitDir_inv base excl d m (p ++ "/" ++ entryName c) c acc cd h2
      · exact Or.inr h2
termination_by structural cs
end

theorem scan_stats_guards (base : String) (excl : List String) (d m : Nat)
    (nm : String) (mt : Nat) (le : Bool) (re : Option String) (cs : List Entry)
    (s : DirectoryStats)
    (h : s ∈ scan_directory base excl d m (some (Entry.dir nm mt le re cs))) :
    relDepth base s.path < d ∧ isExcluded s.path excl = false := by
  simp only [scan_directory, scan_local_directory] at h
  rcases scanLoop_mem excl m _ 0 [] s h with h1 | ⟨cd, hcd, hs⟩
  · simp at h1
  · have hcd2 : cd ∈ (visitDir base excl d m base (Entry.dir nm mt le re cs) []).1 :=
      List.mem_of_mem_take hcd
    rcases visitDir_inv base excl d m base (Entry.dir nm mt le re cs) [] cd hcd2 with h2 | h2
    · simp at h2
    · rw [hs, analyze_directory_path]
      exact h2

theorem analyzeChildren_sizes (p : String) (excl : List String) :
    ∀ (cs : List Entry) (st : AnalyzeState),
      (analyzeChildren p excl cs st).totalSize = st.totalSize + (includedFileSizes p excl cs).sum
      ∧ (analyzeChildren p excl cs st).fileCount = st.fileCount + (includedFileSizes p excl cs).length := by
  intro cs
  induction cs with
  | nil => intro st; simp [analyzeChildren, includedFileSizes]
  | cons c rest ih =>
    intro st
    cases c with
    | file n sz mt =>
      by_cases hex : isExcluded (p ++ "/" ++ n) excl = true
      · simp only [analyzeChildren, includedFileSizes, hex, if_true]
        exact ih st
      · have h := ih ⟨st.fileCount + 1, st.subdirCount, st.totalSize + sz,
          updateMostRecent st.mostRecent ⟨p ++ "/" ++ n, n, sz, mt, false⟩⟩
        simp only [analyzeChildren, includedFileSizes, hex, if_false, Bool.false_eq_true,
          List.sum_cons, List.length_cons] at h ⊢
        omega
    | dir n mt le re cs2 =>
      have h := ih ⟨st.fileCount, st.subdirCount + 1, st.totalSize,
        updateMostRecent st.mostRecent ⟨p ++ "/" ++ n, n, 0, mt, true⟩⟩
      simp only [analyzeChildren, includedFileSizes] at h ⊢
      omega

theorem analyzeChildren_mr (p : String) (excl : List String) :
    ∀ (cs : List Entry) (st : AnalyzeState),
      (analyzeChildren p excl cs st).mostRecent =
        (consideredEntries p excl cs).foldl updateMostRecent st.mostRecent := by
  intro cs
  induction cs with
  | nil => intro st; simp [analyzeChildren, consideredEntries]
  | cons c rest ih =>
    intro st
    cases c with
    | file n sz mt =>
      by_cases hex : isExcluded (p ++ "/" ++ n) excl = true
      · simp only [analyzeChildren, consideredEntries, hex, if_true]
        exact ih st
      · simp only [analyzeChildren, consideredEntries, hex, if_false, Bool.false_eq_true,
          List.foldl_cons]
        exact ih _
    | dir n mt le re cs2 =>
      simp only [analyzeChildren, consideredEntries, List.foldl_cons]
      exact ih _

theorem foldl_umr_from (l : List FileInfo) : ∀ (r0 : FileInfo),
    ∃ r, l.foldl updateMostRecent (some r0) = some r
      ∧ r0.modified_time ≤ r.modified_time
      ∧ (∀ x ∈ l, x.modified_time ≤ r.modified_time)
      ∧ (r = r0 ∨ ∃ l1 l2, l = l1 ++ r :: l2 ∧ r0.modified_time < r.modified_time
          ∧ ∀ x ∈ l1, x.modified_time < r.modified_time) := by
  induction l with
  | nil =>
    intro r0
    exact ⟨r0, rfl, le_refl _, by simp, Or.inl rfl⟩
  | cons x xs ih =>
    intro r0
    by_cases hx : r0.modified_time < x.modified_time
    · obtain ⟨r, h1, h2, h3, h4⟩ := ih x
      refine ⟨r, ?_, ?_, ?_, ?_⟩
      · simpa [updateMostRecent, hx] using h1
      · exact le_trans (le_of_lt hx) h2
      · intro y hy
        rcases List.mem_cons.mp hy with rfl | hy2
        · exact h2
        · exact h3 y hy2
      · right
        rcases h4 with rfl | ⟨l1, l2, hsplit, h5, h6⟩
        · exact ⟨[], xs, rfl, hx, by simp⟩
        · refine ⟨x :: l1, l2, by rw [hsplit]; rfl, lt_trans hx h5, ?_⟩
          intro y hy
          rcases List.mem_cons.mp hy with rfl | hy2
          · exact h5
          · exact h6 y hy2
    · obtain ⟨r, h1, h2, h3, h4⟩ := ih r0
      refine ⟨r, ?_, h2, ?_, ?_⟩
      · simpa [updateMostRecent, hx] using h1
      · intro y hy
        rcases List.mem_cons.mp hy with rfl | hy2
        · exact le_trans (Nat.le_of_not_lt hx) h2
        · exact h3 y hy2
      · rcases h4 with rfl | ⟨l1, l2, hsplit, h5, h6⟩
        · exact Or.inl rfl
        · refine Or.inr ⟨x :: l1, l2, by rw [hsplit]; rfl, h5, ?_⟩
          intro y hy
          rcases List.mem_cons.mp hy with rfl | hy2
          · exact lt_of_le_of_lt (Nat.le_of_not_lt hx) h5
          · exact h6 y hy2

theorem foldl_umr_spec (l : List FileInfo) (hne : l ≠ []) :
    ∃ l1 r l2, l = l1 ++ r :: l2
      ∧ l.foldl updateMostRecent none = some r
      ∧ (∀ x ∈ l1, x.modified_time < r.modified_time)
      ∧ (∀ x ∈ l, x.modified_time ≤ r.modified_time) := by
  match l, hne with
  | x :: xs, _ =>
    obtain ⟨r, h1, h2, h3, h4⟩ := foldl_umr_from xs x
    have hfold : (x :: xs).foldl updateMostRecent none = some r := by
      simpa [updateMostRecent] using h1
    rcases h4 with rfl | ⟨l1, l2, hsplit, h5, h6⟩
    · refine ⟨[], r, xs, rfl, hfold, by simp, ?_⟩
      intro y hy
      rcases List.mem_cons.mp hy with rfl | hy2
      · exact le_refl _
      · exact h3 y hy2
    · refine ⟨x :: l1, r, l2, by rw [hsplit]; rfl, hfold, ?_, ?_⟩
      · intro y hy
        rcases List.mem_cons.mp hy with rfl | hy2
        · exact h5
        · exact h6 y hy2
      · intro y hy
        rcases List.mem_cons.mp hy with rfl | hy2
        · exact h2
        · exact h3 y hy2

/-- C9: when the root path does not exist (root = none) or exists but is not
a directory (root = a file entry), scan_directory returns exactly one
DirectoryStats whose path is the root path and whose error_message is the
str(e) of the raised exception, with zero counts, no most-recent entry and
is_empty = true; no other directory is scanned or reported. -/
theorem c9_root_unavailable (base : String) (excl : List String) (d m : Nat) :
    scan_directory base excl d m none =
      [{ path := base, file_count := 0, subdirectory_count := 0, total_size := 0,
         most_recent_file := none, is_empty := true,
         error_message := some ("Path does not exist: " ++ base) }]
    ∧ ∀ (n : String) (sz mt : Nat),
        scan_directory base excl d m (some (Entry.file n sz mt)) =
          [{ path := base, file_count := 0, subdirectory_count := 0, total_size := 0,
             most_recent_file := none, is_empty := true,
             error_message := some ("Path is not a directory: " ++ base) }] :=
  ⟨rfl, fun _ _ _ => rfl⟩

/-- C5: for every scan with max_dirs m > 0 the returned list has at most m
entries, both when the root walk succeeds (possibly with error-tagged
per-directory records) and when the root itself is unavailable (one error
record). -/
theorem c5_max_dirs_bound (base : String) (excl : List String) (d m : Nat)
    (root : Option Entry) (hm : 0 < m) :
    (scan_directory base excl d m root).length ≤ m := by
  match root with
  | none => simpa [scan_directory] using hm
  | some (Entry.file n sz mt) => simpa [scan_directory] using hm
  | some (Entry.dir nm mt le re cs) =>
    have h := scanLoop_length excl m
      (get_directories_to_scan base excl d m (Entry.dir nm mt le re cs)) 0 []
    have h2 : (get_directories_to_scan base excl d m (Entry.dir nm mt le re cs)).length ≤ m := by
      simp [get_directories_to_scan]
    simp only [scan_directory, scan_local_directory]
    simp only [List.length_nil] at h
    omega

/-- C5 witness: a concrete scan with max_dirs 1. -/
theorem c5_witness : (scan_directory ("/b") [("/b/tmp")] 2 1 (some cTree)).length ≤ 1 :=
  c5_max_dirs_bound ("/b") [("/b/tmp")] 2 1 (some cTree) (by decide)

/-- C4: for a scan of an existing directory root with max_depth d, every
reported DirectoryStats has depth strictly below d, where depth is the
count of path separators in the reported path after stripping the root path
(the computation of scanner.py line 113).  Since the path of every
descendant of a directory extends that directory path with a separator,
this also shows that no descendant of a pruned directory is ever reported. -/
theorem c4_depth_pruning (base : String) (excl : List String) (d m : Nat)
    (nm : String) (mt : Nat) (le : Bool) (re : Option String) (cs : List Entry)
    (s : DirectoryStats)
    (h : s ∈ scan_directory base excl d m (some (Entry.dir nm mt le re cs))) :
    relDepth base s.path < d :=
  (scan_stats_guards base excl d m nm mt le re cs s h).1

/-- C4 witness: the record collected at depth 1 of the concrete fixture
satisfies the bound for max_depth 2. -/
theorem c4_witness : relDepth ("/b") ("/b/data") < 2 :=
  c4_depth_pruning ("/b") [("/b/tmp")] 2 10 ("b") 0 false none cTreeChildren cStats (by decide)

/-- C7: exclusion is raw string prefixing.  First conjunct: _is_excluded
holds iff some pattern is a character-wise leading substring of the path
(no glob, no path-segment boundary).  Second conjunct: no reported record
of a scan has an excluded path; since a pattern that matches a directory
also matches every path below it (string prefixing is preserved by
appending path components), this expresses that the whole subtree of an
excluded directory is pruned.  Third conjunct: total_size is exactly the
sum of the sizes of the non-excluded immediate files and file_count their
number, so excluded files contribute to neither.  Fourth conjunct: the
documented quirk that pattern /backup/tmp excludes both /backup/tmp and
/backup/tmpfile2. -/
theorem c7_exclusion_semantics :
    (∀ (p : String) (pats : List String),
      isExcluded p pats = true ↔ ∃ pat ∈ pats, startswith p pat = true)
    ∧ (∀ (base : String) (excl : List String) (d m : Nat) (nm : String) (mt : Nat)
        (le : Bool) (re : Option String) (cs : List Entry) (s : DirectoryStats),
        s ∈ scan_directory base excl d m (some (Entry.dir nm mt le re cs)) →
        isExcluded s.path excl = false)
    ∧ (∀ (p : String) (excl : List String) (cs : List Entry),
        (analyze_directory p excl none cs).total_size = (includedFileSizes p excl cs).sum
        ∧ (analyze_directory p excl none cs).file_count = (includedFileSizes p excl cs).length)
    ∧ (isExcluded ("/backup/tmpfile2") [("/backup/tmp")] = true
        ∧ isExcluded ("/backup/tmp") [("/backup/tmp")] = true) := by
  refine ⟨?_, ?_, ?_, by decide, by decide⟩
  · intro p pats
    simp [isExcluded, List.any_eq_true]
  · intro base excl d m nm mt le re cs s h
    exact (scan_stats_guards base excl d m nm mt le re cs s h).2
  · intro p excl cs
    have h := analyzeChildren_sizes p excl cs ⟨0, 0, 0, none⟩
    simpa [analyze_directory] using h

/-- C7 witness: the record reported for the concrete fixture under pattern
/b/tmp is not excluded. -/
theorem c7_witness : isExcluded cStats.path [("/b/tmp")] = false :=
  c7_exclusion_semantics.2.1 ("/b") [("/b/tmp")] 2 10 ("b") 0 false none cTreeChildren cStats
    (by decide)

/-- C6: the most-recent entry of an analyzed directory is chosen over both
non-excluded immediate files and all immediate subdirectories by
modification time, with strict-greater updates so that ties resolve to the
entry encountered first in enumeration order: the chosen entry occurs in
the considered sequence, every entry before it is strictly older and no
entry anywhere is newer.  In particular (second conjunct) a directory with
one file modified at T and one subdirectory modified at T + 1 reports the
subdirectory as most recent, with is_directory = true and size 0. -/
theorem c6_most_recent_entry :
    (∀ (p : String) (excl : List String) (cs : List Entry),
      consideredEntries p excl cs ≠ [] →
      ∃ l1 r l2, consideredEntries p excl cs = l1 ++ r :: l2
        ∧ (analyze_directory p excl none cs).most_recent_file = some r
        ∧ (∀ x ∈ l1, x.modified_time < r.modified_time)
        ∧ (∀ x ∈ consideredEntries p excl cs, x.modified_time ≤ r.modified_time))
    ∧ (∀ (p fn dn : String) (fs T : Nat) (dle : Bool) (dre : Option String)
        (dcs : List Entry),
        (analyze_directory p [] none
          [Entry.file fn fs T, Entry.dir dn (T + 1) dle dre dcs]).most_recent_file
          = some ⟨p ++ "/" ++ dn, dn, 0, T + 1, true⟩) := by
  constructor
  · intro p excl cs hne
    have hmr : (analyze_directory p excl none cs).most_recent_file =
        (consideredEntries p excl cs).foldl updateMostRecent none := by
      simp [analyze_directory, analyzeChildren_mr]
    obtain ⟨l1, r, l2, hsplit, hfold, hlt, hle⟩ := foldl_umr_spec _ hne
    exact ⟨l1, r, l2, hsplit, by rw [hmr, hfold], hlt, hle⟩
  · intro p fn dn fs T dle dre dcs
    simp [analyze_directory, analyzeChildren, updateMostRecent, isExcluded, Nat.lt_succ_self]

/-- C6 witness: the general characterization applied to a concrete directory
with one file (time 10) and one subdirectory (time 11). -/
theorem c6_witness :
    ∃ l1 r l2, consideredEntries ("/d") [] c6Children = l1 ++ r :: l2
      ∧ (analyze_directory ("/d") [] none c6Children).most_recent_file = some r
      ∧ (∀ x ∈ l1, x.modified_time < r.modified_time)
      ∧ (∀ x ∈ consideredEntries ("/d") [] c6Children, x.modified_time ≤ r.modified_time) :=
  c6_most_recent_entry.1 ("/d") [] c6Children (by decide)


theorem bestByActivity_mem :
    ∀ (locs : List Location) (acc : Option (Location × Nat)) (r : Location × Nat),
      bestByActivity locs acc = some r →
      acc = some r ∨ (r.1 ∈ locs ∧ r.1.activity = some r.2) := by
  intro locs
  induction locs with
  | nil => intro acc r h; exact Or.inl h
  | cons lo rest ih =>
    intro acc r h
    rcases acc with _ | ⟨bl, bt⟩
    · cases hact : lo.activity with
      | none =>
        simp only [bestByActivity, hact] at h
        rcases ih none r h with h2 | ⟨h3, h4⟩
        · exact Or.inl h2
        · exact Or.inr ⟨List.mem_cons_of_mem _ h3, h4⟩
      | some t =>
        simp only [bestByActivity, hact] at h
        rcases ih (some (lo, t)) r h with h2 | ⟨h3, h4⟩
        · have hr : r = (lo, t) := by
            have := h2.symm
            simpa using this
          subst hr
          exact Or.inr ⟨List.mem_cons_self _ _, hact⟩
        · exact Or.inr ⟨List.mem_cons_of_mem _ h3, h4⟩
    · cases hact : lo.activity with
      | none =>
        simp only [bestByActivity, hact] at h
        rcases ih (some (bl, bt)) r h with h2 | ⟨h3, h4⟩
        · exact Or.inl h2
        · exact Or.inr ⟨List.mem_cons_of_mem _ h3, h4⟩
      | some t =>
        simp only [bestByActivity, hact] at h
        split at h
        · rcases ih (some (lo, t)) r h with h2 | ⟨h3, h4⟩
          · have hr : r = (lo, t) := by
              have := h2.symm
              simpa using this
            subst hr
            exact Or.inr ⟨List.mem_cons_self _ _, hact⟩
          · exact Or.inr ⟨List.mem_cons_of_mem _ h3, h4⟩
        · rcases ih (some (bl, bt)) r h with h2 | ⟨h3, h4⟩
          · exact Or.inl h2
          · exact Or.inr ⟨List.mem_cons_of_mem _ h3, h4⟩

/-- C3: whenever no candidate has any probed activity, or every probed
activity (hence in particular the most recent one, since the days_old gate
is antitone in the activity time) fails the 7-day freshness gate
days_old <= 7, the selector ignores recency and returns the first candidate
in declared order that exists and is a directory.  The second conjunct is
the concrete instance named by the claim: a group whose two accessible
candidates have activity 10 and 12 days old, declared in that order,
selects the first one. -/
theorem c3_fallback_declared_order :
    (∀ (now : Nat) (locs : List Location),
      (∀ lo ∈ locs, ∀ t, lo.activity = some t → 7 < (now - t) / 86400) →
      find_active_location now locs = locs.find? is_location_accessible)
    ∧ (∀ (now : Nat) (nA pA nB pB : String) (g : Option String), 12 * 86400 ≤ now →
        find_active_location now
          [failCand nA pA g (now - 10 * 86400), failCand nB pB g (now - 12 * 86400)]
          = some (failCand nA pA g (now - 10 * 86400))) := by
  constructor
  · intro now locs hstale
    unfold find_active_location
    cases hbest : bestByActivity locs none with
    | none => rfl
    | some pr =>
      obtain ⟨bl, bt⟩ := pr
      rcases bestByActivity_mem locs none (bl, bt) hbest with h2 | ⟨h3, h4⟩
      · exact absurd h2 (by simp)
      · have hgate : 7 < (now - bt) / 86400 := hstale bl h3 bt h4
        show (if (now - bt) / 86400 ≤ 7 then some bl
            else List.find? is_location_accessible locs)
          = List.find? is_location_accessible locs
        rw [if_neg (by omega)]
  · intro now nA pA nB pB g hnow
    have hbest : bestByActivity
        [failCand nA pA g (now - 10 * 86400), failCand nB pB g (now - 12 * 86400)] none
        = some (failCand nA pA g (now - 10 * 86400), now - 10 * 86400) := by
      have hlt : ¬(now - 10 * 86400 < now - 12 * 86400) := by omega
      simp only [bestByActivity, failCand]
      rw [if_neg hlt]
    have h10 : (now - (now - 10 * 86400)) / 86400 = 10 := by
      rw [Nat.sub_sub_self (by omega : 10 * 86400 ≤ now)]
    have hgate : ¬((now - (now - 10 * 86400)) / 86400 ≤ 7) := by
      rw [h10]
      norm_num
    rw [find_active_location, hbest]
    show (if (now - (now - 10 * 86400)) / 86400 ≤ 7 then some (failCand nA pA g (now - 10 * 86400))
        else List.find? is_location_accessible
          [failCand nA pA g (now - 10 * 86400), failCand nB pB g (now - 12 * 86400)])
      = some (failCand nA pA g (now - 10 * 86400))
    rw [if_neg hgate]
    simp [List.find?, is_location_accessible, failCand]

/-- C3 witness: the concrete instance at clock 12 * 86400, candidates A
(10 days old) and B (12 days old) in declared order A, B. -/
theorem c3_witness :
    find_active_location (12 * 86400)
      [failCand ("A") ("/a") (some "g") (12 * 86400 - 10 * 86400),
       failCand ("B") ("/bb") (some "g") (12 * 86400 - 12 * 86400)]
      = some (failCand ("A") ("/a") (some "g") (12 * 86400 - 10 * 86400)) :=
  c3_fallback_declared_order.2 (12 * 86400) ("A") ("/a") ("B") ("/bb") (some "g") (le_refl _)

theorem issuesForLocation_location (cutoff : Nat) (name : String)
    (stats : List DirectoryStats) :
    ∀ i ∈ issuesForLocation cutoff name stats, i.location = name := by
  intro i hi
  simp only [issuesForLocation] at hi
  split at hi
  · simp only [List.mem_singleton] at hi
    subst hi
    rfl
  · split at hi <;> split at hi <;> split at hi <;>
      simp only [List.mem_append, List.mem_singleton, List.not_mem_nil, false_or,
        or_false] at hi <;>
      rcases hi with (rfl | rfl) | rfl <;> rfl

theorem identify_issues_filter_none (now daysBack : Nat) :
    ∀ (results : List (String × List DirectoryStats)) (name : String),
      (∀ pr ∈ results, pr.1 ≠ name) →
      (identify_issues now daysBack results).filter (fun i => i.location == name) = [] := by
  intro results
  induction results with
  | nil => intro name h; rfl
  | cons pr rest ih =>
    intro name h
    have h1 : (issuesForLocation (now - daysBack * 2 * 86400) pr.1 pr.2).filter
        (fun i => i.location == name) = [] := by
      rw [List.filter_eq_nil_iff]
      intro i hi
      have hloc := issuesForLocation_location _ _ _ i hi
      simp [hloc, h pr (List.mem_cons_self _ _)]
    have h2 := ih name (fun pr2 hpr2 => h pr2 (List.mem_cons_of_mem _ hpr2))
    simp only [identify_issues, List.flatMap_cons, List.filter_append, h1,
      List.nil_append] at *
    exact h2

/-- C8: a location whose result list is empty receives exactly one issue,
of type no_data and severity high, and no issue of any other type: among
all issues produced for a scan-results mapping with pairwise distinct
location names, exactly the single no_data issue carries that location
name. -/
theorem c8_empty_location_no_data (now daysBack : Nat)
    (results : List (String × List DirectoryStats)) (name : String)
    (hnodup : (results.map Prod.fst).Nodup)
    (hmem : (name, ([] : List DirectoryStats)) ∈ results) :
    (identify_issues now daysBack results).filter (fun i => i.location == name)
      = [noDataIssue name] := by
  induction results with
  | nil => cases hmem
  | cons pr rest ih =>
    simp only [List.map_cons, List.nodup_cons] at hnodup
    rcases List.mem_cons.mp hmem with heq | hmem2
    · have hrest : ∀ pr2 ∈ rest, pr2.1 ≠ name := by
        intro pr2 hpr2 hcon
        apply hnodup.1
        have hm : pr2.1 ∈ rest.map Prod.fst := List.mem_map_of_mem Prod.fst hpr2
        rw [hcon] at hm
        rw [← heq]
        exact hm
      have h2 := identify_issues_filter_none now daysBack rest name hrest
      simp only [identify_issues] at h2 ⊢
      rw [← heq]
      simp only [List.flatMap_cons, List.filter_append, h2, List.append_nil]
      simp [issuesForLocation, noDataIssue]
    · have hkey : pr.1 ≠ name := by
        intro hcon
        apply hnodup.1
        rw [hcon]
        exact List.mem_map_of_mem Prod.fst hmem2
      have h1 : (issuesForLocation (now - daysBack * 2 * 86400) pr.1 pr.2).filter
          (fun i => i.location == name) = [] := by
        rw [List.filter_eq_nil_iff]
        intro i hi
        have hloc := issuesForLocation_location _ _ _ i hi
        simp [hloc, hkey]
      have h3 := ih hnodup.2 hmem2
      simp only [identify_issues, List.flatMap_cons, List.filter_append, h1,
        List.nil_append] at *
      exact h3

/-- C8 witness: a two-location mapping where location L has an empty result
list; the issues carrying the name L are exactly one no_data issue. -/
theorem c8_witness :
    (identify_issues 1000000 7 [(("M" : String), [cStats]), (("L" : String), [])]).filter
      (fun i => i.location == "L") = [noDataIssue ("L")] :=
  c8_empty_location_no_data 1000000 7 [(("M" : String), [cStats]), (("L" : String), [])]
    ("L") (by decide) (by decide)

/-- C2 counterexample: for the mapping with one location L whose result list
is empty, the stale_backup check condition holds (no error-free record has
recent activity, vacuously), yet identify_issues emits only the no_data
issue for L and no stale_backup issue: the continue after no_data
suppresses the later checks, so the four checks are not evaluated
unconditionally for every location. -/
theorem c2_counterexample :
    staleCond 0 ([] : List DirectoryStats) = true
    ∧ identify_issues 0 7 [(("L" : String), ([] : List DirectoryStats))]
        = [noDataIssue ("L")]
    ∧ (identify_issues 0 7 [(("L" : String), ([] : List DirectoryStats))]).filter
        (fun i => i.type == "stale_backup") = [] := by
  refine ⟨rfl, rfl, rfl⟩

/-- C2 as amended: for a location with a non-empty result list the three
remaining checks access_errors, stale_backup and many_empty_dirs are
evaluated independently and unconditionally - each contributes exactly one
issue precisely when its own condition holds, irrespective of the other
checks - and no no_data issue is produced; a location with an empty result
list is short-circuited to the single no_data issue (claim C8), so for it
the later checks are skipped.  The last conjunct connects the per-location
body to identify_issues. -/
theorem c2_checks_independent (cutoff : Nat) (name : String)
    (stats : List DirectoryStats) (hne : stats ≠ []) :
    (issuesForLocation cutoff name stats).countP (fun i => i.type == "no_data") = 0
    ∧ (issuesForLocation cutoff name stats).countP (fun i => i.type == "access_errors")
        = (if accessErrorsCond stats then 1 else 0)
    ∧ (issuesForLocation cutoff name stats).countP (fun i => i.type == "stale_backup")
        = (if staleCond cutoff stats then 1 else 0)
    ∧ (issuesForLocation cutoff name stats).countP (fun i => i.type == "many_empty_dirs")
        = (if manyEmptyCond stats then 1 else 0)
    ∧ (∀ now daysBack : Nat,
        identify_issues now daysBack [(name, stats)]
          = issuesForLocation (now - daysBack * 2 * 86400) name stats) := by
  have hEmpty : stats.isEmpty = false := by
    cases stats with
    | nil => exact absurd rfl hne
    | cons a l => rfl
  refine ⟨?_, ?_, ?_, ?_, ?_⟩ <;>
    first
      | (intro now daysBack
         simp [identify_issues])
      | (simp only [issuesForLocation, hEmpty, Bool.false_eq_true, if_false]
         by_cases h1 : (0 < stats.countP fun s => s.error_message.isSome) <;>
         by_cases h2 : (!hasRecentActivity cutoff stats) = true <;>
         by_cases h3 : (!(stats.filter fun s => s.error_message.isNone).isEmpty &&
             decide ((stats.filter fun s => s.error_message.isNone).length <
               2 * (stats.filter fun s => s.error_message.isNone).countP fun s => s.is_empty))
             = true <;>
         simp [h1, h2, h3, accessErrorsCond, staleCond, manyEmptyCond,
           List.countP_append, List.countP_cons, noDataIssue])

/-- C2 witness: the amended independence statement at a concrete non-empty
result list. -/
theorem c2_witness :
    (issuesForLocation 0 ("L") [cStats]).countP (fun i => i.type == "no_data") = 0
    ∧ (issuesForLocation 0 ("L") [cStats]).countP (fun i => i.type == "access_errors")
        = (if accessErrorsCond [cStats] then 1 else 0)
    ∧ (issuesForLocation 0 ("L") [cStats]).countP (fun i => i.type == "stale_backup")
        = (if staleCond 0 [cStats] then 1 else 0)
    ∧ (issuesForLocation 0 ("L") [cStats]).countP (fun i => i.type == "many_empty_dirs")
        = (if manyEmptyCond [cStats] then 1 else 0)
    ∧ (∀ now daysBack : Nat,
        identify_issues now daysBack [(("L" : String), [cStats])]
          = issuesForLocation (now - daysBack * 2 * 86400) ("L") [cStats]) :=
  c2_checks_independent 0 ("L") [cStats] (by decide)

theorem tallyStats_inv (cutoff : Nat) (n : String) (t : Tally) (s : DirectoryStats)
    (h : t.empty + t.errors ≤ t.total) :
    (tallyStats cutoff n t s).empty + (tallyStats cutoff n t s).errors
      ≤ (tallyStats cutoff n t s).total := by
  unfold tallyStats
  rcases herr : s.error_message with _ | msg
  · by_cases hemp : s.is_empty = true <;>
      rcases hmrf : s.most_recent_file with _ | f <;>
      simp [hemp, hmrf] <;>
      first
        | omega
        | (split <;> simp <;> omega)
  · simp
    omega

theorem tallyLoc_inv (cutoff : Nat) (n : String) :
    ∀ (ss : List DirectoryStats) (t : Tally), t.empty + t.errors ≤ t.total →
      (ss.foldl (tallyStats cutoff n) t).empty + (ss.foldl (tallyStats cutoff n) t).errors
        ≤ (ss.foldl (tallyStats cutoff n) t).total := by
  intro ss
  induction ss with
  | nil => intro t h; exact h
  | cons s rest ih =>
    intro t h
    simp only [List.foldl_cons]
    exact ih _ (tallyStats_inv cutoff n t s h)

theorem tallyAll_inv (cutoff : Nat) (results : List (String × List DirectoryStats)) :
    (tallyAll cutoff results).empty + (tallyAll cutoff results).errors
      ≤ (tallyAll cutoff results).total := by
  have haux : ∀ (rs : List (String × List DirectoryStats)) (t : Tally),
      t.empty + t.errors ≤ t.total →
      (rs.foldl (fun t pr => pr.2.foldl (tallyStats cutoff pr.1) t) t).empty
          + (rs.foldl (fun t pr => pr.2.foldl (tallyStats cutoff pr.1) t) t).errors
        ≤ (rs.foldl (fun t pr => pr.2.foldl (tallyStats cutoff pr.1) t) t).total := by
    intro rs
    induction rs with
    | nil => intro t h; exact h
    | cons pr rest ih =>
      intro t h
      simp only [List.foldl_cons]
      exact ih _ (tallyLoc_inv cutoff pr.1 pr.2 t h)
  exact haux results ⟨0, 0, 0, 0, 0, 0, []⟩ (by simp)

/-- C10: analyze_results never counts an error-tagged record as empty (the
continue after the error branch skips the is_empty check even though such
records carry is_empty = true), so empty plus error directories never
exceed the total, the healthy count computed by integer subtraction is
nonnegative, and the health percentage always lies in [0, 100] (with the
zero-total case defined as 0). -/
theorem c10_health_bounds (now daysBack : Nat)
    (results : List (String × List DirectoryStats)) :
    (analyze_results now daysBack results).empty_directories
        + (analyze_results now daysBack results).error_directories
      ≤ (analyze_results now daysBack results).total_directories
    ∧ 0 ≤ (analyze_results now daysBack results).healthy_directories
    ∧ 0 ≤ (analyze_results now daysBack results).health_percentage
    ∧ (analyze_results now daysBack results).health_percentage ≤ 100 := by
  have hinv := tallyAll_inv (now - daysBack * 86400) results
  unfold analyze_results
  refine ⟨hinv, by dsimp only; omega, ?_, ?_⟩
  · dsimp only
    split
    · have hnum : (0 : Rat) ≤
          ((((tallyAll (now - daysBack * 86400) results).total : Int)
            - ((tallyAll (now - daysBack * 86400) results).empty : Int)
            - ((tallyAll (now - daysBack * 86400) results).errors : Int) : Int) : Rat) := by
        have : (0 : Int) ≤ ((tallyAll (now - daysBack * 86400) results).total : Int)
            - ((tallyAll (now - daysBack * 86400) results).empty : Int)
            - ((tallyAll (now - daysBack * 86400) results).errors : Int) := by
          omega
        exact_mod_cast this
      have hden : (0 : Rat) ≤ ((tallyAll (now - daysBack * 86400) results).total : Rat) := by
        positivity
      positivity
    · norm_num
  · dsimp only
    split
    · rename_i hpos
      have htpos : (0 : Rat) < ((tallyAll (now - daysBack * 86400) results).total : Rat) := by
        exact_mod_cast hpos
      have hle : ((((tallyAll (now - daysBack * 86400) results).total : Int)
            - ((tallyAll (now - daysBack * 86400) results).empty : Int)
            - ((tallyAll (now - daysBack * 86400) results).errors : Int) : Int) : Rat)
          ≤ ((tallyAll (now - daysBack * 86400) results).total : Rat) := by
        have : ((tallyAll (now - daysBack * 86400) results).total : Int)
            - ((tallyAll (now - daysBack * 86400) results).empty : Int)
            - ((tallyAll (now - daysBack * 86400) results).errors : Int)
            ≤ ((tallyAll (now - daysBack * 86400) results).total : Int) := by
          omega
        exact_mod_cast this
      have hdiv : ((((tallyAll (now - daysBack * 86400) results).total : Int)
            - ((tallyAll (now - daysBack * 86400) results).empty : Int)
            - ((tallyAll (now - daysBack * 86400) results).errors : Int) : Int) : Rat)
          / ((tallyAll (now - daysBack * 86400) results).total : Rat) ≤ 1 := by
        rw [div_le_one htpos]
        exact hle
      calc ((((tallyAll (now - daysBack * 86400) results).total : Int)
            - ((tallyAll (now - daysBack * 86400) results).empty : Int)
            - ((tallyAll (now - daysBack * 86400) results).errors : Int) : Int) : Rat)
            / ((tallyAll (now - daysBack * 86400) results).total : Rat) * 100
          ≤ 1 * 100 := by
            apply mul_le_mul_of_nonneg_right hdiv
            norm_num
        _ = 100 := by norm_num
    · norm_num

theorem locKey_fg (x : Location) (k : String) (h : locKey x = some k) :
    x.failover_group = some k := by
  cases hfg : x.failover_group with
  | none => simp [locKey, hfg] at h
  | some g =>
    simp only [locKey, hfg] at h
    split at h
    · cases h
    · exact h

theorem groupStep_none (gs : List (String × List Location)) (x : Location)
    (h : locKey x = none) : groupStep gs x = gs := by
  cases hfg : x.failover_group with
  | none => simp [groupStep, hfg]
  | some g =>
    simp only [locKey, hfg] at h
    simp only [groupStep, hfg]
    split at h
    · rename_i hge
      rw [if_pos hge]
    · cases h

theorem groupStep_some (gs : List (String × List Location)) (x : Location) (k : String)
    (h : locKey x = some k) : groupStep gs x = addToGroups gs k x := by
  cases hfg : x.failover_group with
  | none => simp [locKey, hfg] at h
  | some g =>
    simp only [locKey, hfg] at h
    simp only [groupStep, hfg]
    split at h
    · cases h
    · rename_i hge
      rw [if_neg hge, Option.some.inj h]

theorem addTo_filter_ne (s : String) :
    ∀ (gs : List (String × List Location)) (k : String) (x : Location), k ≠ s →
      (addToGroups gs k x).filter (fun pr => pr.1 != s)
        = addToGroups (gs.filter (fun pr => pr.1 != s)) k x := by
  intro gs
  induction gs with
  | nil =>
    intro k x hk
    simp [addToGroups, hk]
  | cons hd rest ih =>
    intro k x hk
    obtain ⟨k2, ls⟩ := hd
    by_cases hk2 : k2 = k
    · subst hk2
      simp [addToGroups, List.filter_cons, hk]
    · by_cases hk2s : k2 = s
      · subst hk2s
        simp [addToGroups, List.filter_cons, hk2, ih k x hk]
      · simp [addToGroups, List.filter_cons, hk2, hk2s, ih k x hk]

theorem addTo_filter_eq (s : String) :
    ∀ (gs : List (String × List Location)) (k : String) (x : Location), k ≠ s →
      (addToGroups gs k x).filter (fun pr => pr.1 == s)
        = gs.filter (fun pr => pr.1 == s) := by
  intro gs
  induction gs with
  | nil =>
    intro k x hk
    simp [addToGroups, hk]
  | cons hd rest ih =>
    intro k x hk
    obtain ⟨k2, ls⟩ := hd
    by_cases hk2 : k2 = k
    · subst hk2
      simp [addToGroups, List.filter_cons, hk]
    · by_cases hk2s : k2 = s
      · subst hk2s
        simp [addToGroups, List.filter_cons, hk2, ih k x hk]
      · simp [addToGroups, List.filter_cons, hk2, hk2s, ih k x hk]

theorem fold_filter_ne (s : String) :
    ∀ (xs : List Location) (gs : List (String × List Location)),
      (∀ x ∈ xs, locKey x ≠ some s) →
      (xs.foldl groupStep gs).filter (fun pr => pr.1 != s)
        = xs.foldl groupStep (gs.filter (fun pr => pr.1 != s)) := by
  intro xs
  induction xs with
  | nil => intro gs h; rfl
  | cons x rest ih =>
    intro gs h
    simp only [List.foldl_cons]
    rw [ih (groupStep gs x) (fun y hy => h y (List.mem_cons_of_mem _ hy))]
    congr 1
    cases hk : locKey x with
    | none => rw [groupStep_none _ _ hk, groupStep_none _ _ hk]
    | some k =>
      have hks : k ≠ s := by
        intro hcon
        exact h x (List.mem_cons_self _ _) (by rw [hk, hcon])
      rw [groupStep_some _ _ _ hk, groupStep_some _ _ _ hk]
      exact addTo_filter_ne s gs k x hks

theorem fold_filter_eq (s : String) :
    ∀ (xs : List Location) (gs : List (String × List Location)),
      (∀ x ∈ xs, locKey x ≠ some s) →
      (xs.foldl groupStep gs).filter (fun pr => pr.1 == s)
        = gs.filter (fun pr => pr.1 == s) := by
  intro xs
  induction xs with
  | nil => intro gs h; rfl
  | cons x rest ih =>
    intro gs h
    simp only [List.foldl_cons]
    rw [ih (groupStep gs x) (fun y hy => h y (List.mem_cons_of_mem _ hy))]
    cases hk : locKey x with
    | none => rw [groupStep_none _ _ hk]
    | some k =>
      have hks : k ≠ s := by
        intro hcon
        exact h x (List.mem_cons_self _ _) (by rw [hk, hcon])
      rw [groupStep_some _ _ _ hk]
      exact addTo_filter_eq s gs k x hks

theorem addTo_new :
    ∀ (gs : List (String × List Location)) (k : String) (x : Location),
      (∀ pr ∈ gs, pr.1 ≠ k) → addToGroups gs k x = gs ++ [(k, [x])] := by
  intro gs
  induction gs with
  | nil => intro k x h; rfl
  | cons hd rest ih =>
    intro k x h
    obtain ⟨k2, ls⟩ := hd
    have hne : k2 ≠ k := h (k2, ls) (List.mem_cons_self _ _)
    simp only [addToGroups, if_neg hne]
    rw [ih k x (fun pr hpr => h pr (List.mem_cons_of_mem _ hpr))]
    rfl

/-- C1 counterexample: a single configured location carrying the non-empty
failover-group tag g that no other location shares is not scanned as a
standalone location: scan_all_locations produces no entry at all (in
particular none keyed by the location name A), although a plain standalone
scan of the location yields a non-empty result list. -/
theorem c1_counterexample :
    scan_all_locations cScan 0 [cLoneLoc] = []
    ∧ (scan_all_locations cScan 0 [cLoneLoc]).lookup ("A") = none
    ∧ cScan cLoneLoc
        = [{ path := "/a", file_count := 1, subdirectory_count := 0, total_size := 0,
             most_recent_file := none, is_empty := false, error_message := none }] :=
  ⟨rfl, rfl, rfl⟩

/-- C1 as amended: a location carrying a non-empty failover-group tag that
no other location shares is dropped entirely by scan_all_locations - the
orchestrator behaves exactly as if the location were absent, because the
truthiness filter removes it from the standalone partition and the
size-at-least-two filter removes its singleton group from the failover
partition.  It is not scanned as a standalone location. -/
theorem c1_lone_tagged_dropped (scanLoc : Location → List DirectoryStats) (now : Nat)
    (pre post : List Location) (l : Location)
    (htag : fgTruthy l.failover_group = true)
    (hunique : ∀ l2 ∈ pre ++ post, l2.failover_group ≠ l.failover_group) :
    scan_all_locations scanLoc now (pre ++ l :: post)
      = scan_all_locations scanLoc now (pre ++ post) := by
  obtain ⟨sg, hfg, hse⟩ : ∃ sg, l.failover_group = some sg ∧ sg.isEmpty = false := by
    cases hfg : l.failover_group with
    | none => simp [fgTruthy, hfg] at htag
    | some g => exact ⟨g, rfl, by simpa [fgTruthy, hfg] using htag⟩
  have hlk : locKey l = some sg := by simp [locKey, hfg, hse]
  have hpre : ∀ x ∈ pre, locKey x ≠ some sg := by
    intro x hx hcon
    exact hunique x (List.mem_append_left _ hx) (by rw [locKey_fg x sg hcon, hfg])
  have hpost : ∀ x ∈ post, locKey x ≠ some sg := by
    intro x hx hcon
    exact hunique x (List.mem_append_right _ hx) (by rw [locKey_fg x sg hcon, hfg])
  have hfilter : (pre ++ l :: post).filter (fun x => !fgTruthy x.failover_group)
      = (pre ++ post).filter (fun x => !fgTruthy x.failover_group) := by
    simp [List.filter_append, List.filter_cons, htag]
  have hgroups : group_failover_locations (pre ++ l :: post)
      = group_failover_locations (pre ++ post) := by
    unfold group_failover_locations
    set G := pre.foldl groupStep ([] : List (String × List Location)) with hG
    have hGs : ∀ pr ∈ G, pr.1 ≠ sg := by
      intro pr hpr hcon
      have hfe : G.filter (fun pr => pr.1 == sg) = [] := by
        rw [hG]
        simpa using fold_filter_eq sg pre [] hpre
      have hmem : pr ∈ G.filter (fun pr => pr.1 == sg) :=
        List.mem_filter.mpr ⟨hpr, by simp [hcon]⟩
      rw [hfe] at hmem
      cases hmem
    have hfold1 : (pre ++ l :: post).foldl groupStep []
        = post.foldl groupStep (G ++ [(sg, [l])]) := by
      rw [List.foldl_append, List.foldl_cons, ← hG]
      congr 1
      rw [groupStep_some G l sg hlk]
      exact addTo_new G sg l hGs
    have hfold2 : (pre ++ post).foldl groupStep [] = post.foldl groupStep G := by
      rw [List.foldl_append, ← hG]
    set F := post.foldl groupStep (G ++ [(sg, [l])]) with hF
    have hFne : F.filter (fun pr => pr.1 != sg) = post.foldl groupStep G := by
      rw [hF, fold_filter_ne sg post _ hpost]
      congr 1
      rw [List.filter_append]
      have h1 : G.filter (fun pr => pr.1 != sg) = G :=
        List.filter_eq_self.mpr (fun pr hpr => by simp [hGs pr hpr])
      have h2 : ([(sg, [l])] : List (String × List Location)).filter
          (fun pr => pr.1 != sg) = [] := by simp
      rw [h1, h2, List.append_nil]
    have hFeq : F.filter (fun pr => pr.1 == sg) = [(sg, [l])] := by
      rw [hF, fold_filter_eq sg post _ hpost, List.filter_append]
      have h1 : G.filter (fun pr => pr.1 == sg) = [] := by
        rw [List.filter_eq_nil_iff]
        intro pr hpr
        simp [hGs pr hpr]
      have h2 : ([(sg, [l])] : List (String × List Location)).filter
          (fun pr => pr.1 == sg) = [(sg, [l])] := by simp
      rw [h1, h2, List.nil_append]
    have hsingle : ∀ pr ∈ F, pr.1 = sg → pr = (sg, [l]) := by
      intro pr hpr hk
      have hmem : pr ∈ F.filter (fun pr => pr.1 == sg) :=
        List.mem_filter.mpr ⟨hpr, by simp [hk]⟩
      rw [hFeq] at hmem
      simpa using hmem
    have hstep : F.filter (fun pr => decide (1 < pr.2.length))
        = (F.filter (fun pr => pr.1 != sg)).filter (fun pr => decide (1 < pr.2.length)) := by
      rw [List.filter_filter]
      apply List.filter_congr
      intro pr hpr
      by_cases hk : pr.1 = sg
      · rw [hsingle pr hpr hk]
        simp
      · simp [hk]
    rw [hfold1, hfold2, hstep, hFne]
  unfold scan_all_locations
  rw [hfilter, hgroups]

/-- C1 witness: dropping the lone tagged location from a two-location
configuration leaves the scan result unchanged. -/
theorem c1_witness :
    scan_all_locations cScan 0 [cLocB, cLoneLoc] = scan_all_locations cScan 0 [cLocB] :=
  c1_lone_tagged_dropped cScan 0 [cLocB] [] cLoneLoc (by decide) (by decide)
